import Mathlib

/-!
Shallow embedding of the benchmark report generators
(`benchmarks/report.py` and `benchmarks/gen_chart.py`; the two files are
line-for-line identical in every function modelled here).

Modelling conventions:
* Python floats are modelled as exact rationals (`ℚ`).  All duration
  arithmetic in the scripts stays within ranges where the float
  computations agree with exact arithmetic on the decimal literals
  involved, and every claim is stated at the level of decimal constants.
* Python strings are Lean `String`s, Python `None` is `Option.none`.
* Partial Python operations (indexing, `min`/`max` of a possibly empty
  list) keep the guards the scripts themselves use; where the script
  relies on a non-emptiness precondition, the embedding either takes the
  same guard or returns an `Option`.

The rational arithmetic primitives are restored to `semireducible` so
that concrete runs of the embedded functions can be settled by `decide`
(kernel reduction; the attribute changes no definition and no proof).
-/

set_option allowUnsafeReducibility true

attribute [local semireducible] Rat.mul Rat.add Rat.sub Rat.inv Rat.div Rat.ofScientific

/-- One row of `bench_summary`: `query_id, status, duration_ms,
rows_returned, run_ts` as fetched by `fetch_bench_data`.  `run_ts` is the
timestamp column, already rendered to its ISO string (Python's
`datetime.isoformat` is modelled as the identity on the rendered form;
a `NULL` timestamp is `none`). -/
structure QueryResult where
  query_id : ℕ
  status : String
  duration_ms : ℚ
  rows_returned : ℕ
  run_ts : Option String
deriving DecidableEq

/-- Python's `round` on a number with no second argument: round half to
even (banker's rounding), producing an integer. -/
def pyRound (q : ℚ) : ℤ :=
  let f : ℤ := ⌊q⌋
  if q - f < 1/2 then f
  else if 1/2 < q - f then f + 1
  else if f % 2 = 0 then f else f + 1

/-- Python's `round(x, d)` for `d` decimal places (half-to-even on the
scaled value; exact on the rationals that arise in the scripts). -/
def roundTo (d : ℕ) (q : ℚ) : ℚ :=
  (pyRound (q * 10 ^ d) : ℚ) / 10 ^ d

/-- Python's built-in `min` over a list of numbers (the scripts only call
it on non-empty lists; the `0` fallback mirrors the `if durations else 0`
guards at each call site). -/
def listMin : List ℚ → ℚ
  | [] => 0
  | h :: t => t.foldl min h

/-- Python's built-in `max` over a list of numbers (same conventions as
`listMin`). -/
def listMax : List ℚ → ℚ
  | [] => 0
  | h :: t => t.foldl max h

/-- Insert into a sorted list, keeping ascending order. -/
def insertSorted (x : ℚ) : List ℚ → List ℚ
  | [] => [x]
  | y :: ys => if x ≤ y then x :: y :: ys else y :: insertSorted x ys

/-- Python's `sorted` on a list of numbers (insertion sort; for a list of
plain numbers the result is the unique ascending rearrangement, which is
all the scripts depend on). -/
def pySorted : List ℚ → List ℚ
  | [] => []
  | x :: xs => insertSorted x (pySorted xs)

/-- `statistics.median`: sort, take the middle element for odd length and
the two-point average for even length.  (The library raises on an empty
list; both call sites guard with `if durations else 0`.) -/
def median (l : List ℚ) : ℚ :=
  let s := pySorted l
  let n := s.length
  if n % 2 = 1 then (s[n / 2]?).getD 0
  else ((s[n / 2 - 1]?).getD 0 + (s[n / 2]?).getD 0) / 2

/-- Python's `min(rows, key=lambda r: float(r["duration_ms"]))`: scan left
to right, keeping the first row whose key is strictly smaller than the
current best.  `none` only for an empty list (where Python raises). -/
def pyMinByDuration : List QueryResult → Option QueryResult
  | [] => none
  | h :: t => some (t.foldl (fun best r => if r.duration_ms < best.duration_ms then r else best) h)

/-- Python's `max(rows, key=lambda r: float(r["duration_ms"]))`: keeps the
first row whose key is strictly larger than the current best. -/
def pyMaxByDuration : List QueryResult → Option QueryResult
  | [] => none
  | h :: t => some (t.foldl (fun best r => if best.duration_ms < r.duration_ms then r else best) h)

/-- The `ok_durations` list of `write_meta_json`:
`[float(r["duration_ms"]) for r in rows if r["status"] == "OK"]`. -/
def ok_durations (rows : List QueryResult) : List ℚ :=
  (rows.filter (fun r => r.status == "OK")).map (fun r => r.duration_ms)

/-- The `"results"` sub-document of `meta.json`. -/
structure ResultsBlock where
  total_queries : ℕ
  ok_count : ℕ
  error_count : ℕ
  total_duration_ms : ℚ
  total_duration_s : ℚ
  min_duration_ms : ℚ
  max_duration_ms : ℚ
  median_duration_ms : ℚ
  fastest_query : Option ℕ
  slowest_query : Option ℕ
deriving DecidableEq

/-- The `"results"` block exactly as `write_meta_json` computes it
(report.py lines 225–262): `durations`, `ok_count` and `err_count` over
all rows, `ok_durations` used only as the guard for `fastest_q` /
`slowest_q`, and `min`/`max`/`statistics.median` taken over `durations`
(all rows), each rounded with `round(_, 2)`. -/
def metaResults (rows : List QueryResult) : ResultsBlock :=
  let durations := rows.map (fun r => r.duration_ms)
  let ok_count := rows.countP (fun r => r.status == "OK")
  let err_count := rows.length - ok_count
  let total_ms := durations.foldl (· + ·) 0
  let fastest_q := if ok_durations rows = [] then none else pyMinByDuration rows
  let slowest_q := if ok_durations rows = [] then none else pyMaxByDuration rows
  { total_queries := rows.length
    ok_count := ok_count
    error_count := err_count
    total_duration_ms := roundTo 2 total_ms
    total_duration_s := roundTo 1 (total_ms / 1000)
    min_duration_ms := if durations = [] then 0 else roundTo 2 (listMin durations)
    max_duration_ms := if durations = [] then 0 else roundTo 2 (listMax durations)
    median_duration_ms := if durations = [] then 0 else roundTo 2 (median durations)
    fastest_query := fastest_q.map (fun r => r.query_id)
    slowest_query := slowest_q.map (fun r => r.query_id) }

/-- The metadata bag produced by `fetch_metadata`: engine version facts,
the tuning parameters (`gucs`), and system facts. -/
structure DbMeta where
  pg_version : String
  pg_version_num : ℤ
  pg_gucs : List (String × String)
  scale_factor : Option ℤ
  hostname : String
  os : String
  arch : String
  cpu_count : ℕ
deriving DecidableEq

/-- The `"postgresql"` sub-document of `meta.json`. -/
structure PgBlock where
  version : String
  version_num : ℤ
  gucs : List (String × String)
deriving DecidableEq

/-- The `"system"` sub-document of `meta.json`. -/
structure SysBlock where
  hostname : String
  os : String
  arch : String
  cpu_count : ℕ
deriving DecidableEq

/-- The full `meta.json` document. -/
structure MetaDoc where
  benchmark : String
  schema : String
  date : String
  scale_factor : String
  run_ts : Option String
  postgresql : PgBlock
  system : SysBlock
  results : ResultsBlock
deriving DecidableEq

/-- `write_meta_json` (report.py lines 224–263): the document it
serializes.  `run_ts` is `rows[0]["run_ts"].isoformat() if
rows[0].get("run_ts") else None` — taken from the first row only (the
function is only ever called with a non-empty `rows`; on `[]` the
embedding yields `none` where Python would raise). -/
def write_meta_json (rows : List QueryResult) (metadata : DbMeta)
    (schema bench_name sf date_str : String) : MetaDoc :=
  { benchmark := bench_name
    schema := schema
    date := date_str
    scale_factor := sf
    run_ts := match rows with
      | [] => none
      | r :: _ => r.run_ts
    postgresql := { version := metadata.pg_version
                    version_num := metadata.pg_version_num
                    gucs := metadata.pg_gucs }
    system := { hostname := metadata.hostname
                os := metadata.os
                arch := metadata.arch
                cpu_count := metadata.cpu_count }
    results := metaResults rows }

/-- Scenario A input: `[{1,OK,120.5,100}, {2,OK,95.0,50}, {3,ERROR,0,0}]`. -/
def rowsA : List QueryResult :=
  [ { query_id := 1, status := "OK", duration_ms := 120.5, rows_returned := 100, run_ts := none }
  , { query_id := 2, status := "OK", duration_ms := 95, rows_returned := 50, run_ts := none }
  , { query_id := 3, status := "ERROR", duration_ms := 0, rows_returned := 0, run_ts := none } ]

/-! ## `write_summary_csv` (report.py lines 140–151) -/

/-- Which of the two notations CPython's `str` on a `float` chooses: the
plain positional decimal form, or the exponent form (`1e+16`, `5e-05`).
Modelled for values the conversion represents exactly: `str` chooses the
exponent form exactly when the value is nonzero and its decimal exponent
is at least 16 or below -4, i.e. when `|v| ≥ 10^16` or `|v| < 1/10^4`. -/
inductive PyFloatStyle where
  | positional
  | exponent
deriving DecidableEq

/-- The style `str(float(x))` uses for the exact value `q` (see
`PyFloatStyle`). -/
def floatStrStyle (q : ℚ) : PyFloatStyle :=
  if q ≠ 0 ∧ (|q| < 1 / 10 ^ 4 ∨ 10 ^ 16 ≤ |q|) then .exponent else .positional

/-- One data record written by `csv.DictWriter.writerow` in
`write_summary_csv`: the four cells in their fixed field order, with the
duration cell (the only float cell) tagged with the notation `str`
rendered it in. -/
structure CsvRecord where
  query_id : ℕ
  status : String
  duration_ms : ℚ
  duration_style : PyFloatStyle
  rows_returned : ℕ
deriving DecidableEq

/-- The whole `summary.csv`: the header row written by `writeheader`,
then the data records. -/
structure CsvFile where
  header : List String
  records : List CsvRecord
deriving DecidableEq

/-- The record `write_summary_csv` writes for one row `r`. -/
def csvRecordOf (r : QueryResult) : CsvRecord :=
  { query_id := r.query_id
    status := r.status
    duration_ms := r.duration_ms
    duration_style := floatStrStyle r.duration_ms
    rows_returned := r.rows_returned }

/-- `write_summary_csv` (report.py lines 140–151): header, then one
record per row in order. -/
def write_summary_csv (rows : List QueryResult) : CsvFile :=
  { header := ["query_id", "status", "duration_ms", "rows_returned"]
    records := rows.map csvRecordOf }

/-! ## `create_chart` (report.py lines 154–221) -/

/-- `durations = [float(r["duration_ms"]) for r in rows]` (report.py
line 157). -/
def durationsOf (rows : List QueryResult) : List ℚ :=
  rows.map (fun r => r.duration_ms)

/-- The 95th-percentile of `create_chart`, in guarded form:
`sorted_d[int(len(sorted_d) * 0.95)] if len(sorted_d) >= 5 else
max(sorted_d)` (report.py lines 166–167).  `int(n * 0.95)` is `⌊19n/20⌋`
(exact: the float product `n * 0.95` never strays across an integer
boundary for any list length the scripts can see).  `none` is returned
exactly where Python would raise: an out-of-range index, or `max` of an
empty list. -/
def p95opt (durations : List ℚ) : Option ℚ :=
  let sorted_d := pySorted durations
  if 5 ≤ sorted_d.length then sorted_d[(19 * sorted_d.length) / 20]?
  else match sorted_d with
    | [] => none
    | h :: t => some (t.foldl max h)

/-- The value of the percentile step (total form used by the rest of
`create_chart`; the fallback is never reached on the script's non-empty
inputs, see `p95opt`). -/
def p95of (durations : List ℚ) : ℚ := (p95opt durations).getD 0

/-- One rendered bar: its drawn height, and the textual annotation of the
true duration carried by clipped bars (`none` when the bar is not
annotated; the annotation's value is the true duration the label text
renders). -/
structure BarSpec where
  height : ℚ
  clipLabel : Option ℚ
deriving DecidableEq

/-- What the outlier-handling part of `create_chart` produces: the
`y_cap` the outlier detection sets (report.py lines 168–170), the upper
y-axis limit when `set_ylim` runs, and the bars. -/
structure ChartSpec where
  y_cap : Option ℚ
  y_max : Option ℚ
  bars : List BarSpec
deriving DecidableEq

/-- `y_cap` as computed by report.py lines 168–170: `None` unless
`max(durations) > 3 * p95 and p95 > 0`, in which case `p95 * 2.0`. -/
def chartYCap (durations : List ℚ) : Option ℚ :=
  if 3 * p95of durations < listMax durations ∧ 0 < p95of durations then
    some (p95of durations * 2)
  else none

/-- The clipping of one bar (report.py lines 177–182): a bar whose true
duration exceeds the cap is drawn at `y_cap * 1.05` and annotated with
its true value; any other bar keeps its duration as height. -/
def applyClip (cap d : ℚ) : BarSpec :=
  if cap < d then { height := cap * (105 / 100), clipLabel := some d }
  else { height := d, clipLabel := none }

/-- The outlier-policy content of `create_chart` (report.py lines
154–182): durations are the bar heights; if `y_cap` is truthy
(`if y_cap:` — set and nonzero) the y-axis is limited to `y_cap * 1.12`
and every bar above the cap is clipped and annotated. -/
def create_chart (rows : List QueryResult) : ChartSpec :=
  let durations := durationsOf rows
  match chartYCap durations with
  | some cap =>
      if cap = 0 then
        { y_cap := some cap, y_max := none
          bars := durations.map (fun d => { height := d, clipLabel := none }) }
      else
        { y_cap := some cap, y_max := some (cap * (112 / 100))
          bars := durations.map (applyClip cap) }
  | none =>
      { y_cap := none, y_max := none
        bars := durations.map (fun d => { height := d, clipLabel := none }) }

/-! ## The `update_readme` scan (report.py lines 274–287) -/

/-- The state of one run directory's `meta.json` as the scan can find
it: absent (`os.path.exists` is false), present but not parseable
(`json.load` raises), or readable with a parsed document. -/
inductive MetaFile where
  | absent
  | corrupt
  | readable (doc : MetaDoc)
deriving DecidableEq

/-- The scan loop of `update_readme` (report.py lines 278–287) over the
discovered run directories in their iteration order: a directory whose
`meta.json` does not exist is skipped with `continue`; on a present
file, `json.load` either yields the document (appended to `runs`) or
raises, which aborts the whole function (`Except.error`). -/
def update_readme_scan : List (String × MetaFile) → Except Unit (List (String × MetaDoc))
  | [] => Except.ok []
  | (_, MetaFile.absent) :: rest => update_readme_scan rest
  | (_, MetaFile.corrupt) :: _ => Except.error ()
  | (name, MetaFile.readable doc) :: rest =>
      match update_readme_scan rest with
      | Except.ok runs => Except.ok ((name, doc) :: runs)
      | Except.error e => Except.error e

/-- The runs a fully successful scan collects: every readable directory,
in order. -/
def readableRuns (dirs : List (String × MetaFile)) : List (String × MetaDoc) :=
  dirs.filterMap (fun p => match p.2 with
    | MetaFile.readable doc => some (p.1, doc)
    | _ => none)

/-! ## `make_run_dir` (report.py lines 128–137)

The filesystem under the base directory is modelled as the list of paths
that exist (`os.path.exists` is list membership); `os.makedirs` adds the
created path.  The collision loop needs a termination argument: the
decimal-numbered candidates are pairwise distinct, so a finite filesystem
cannot occupy all of them (`exists_free_sfx` below, via the injectivity
of `Nat.repr`). -/

/-- The numeric value of a decimal digit character (`48` is the code of
the zero digit). -/
def charVal (c : Char) : ℕ := c.toNat - 48

/-- Reads a decimal digit string back as a number. -/
def val10 (l : List Char) : ℕ := l.foldl (fun a c => 10 * a + charVal c) 0

/-- The suffixed candidate `f"{run_dir}_{i}"` of the collision loop. -/
def sfxName (base : String) (i : ℕ) : String := base ++ "_" ++ Nat.repr i

/-- The `while os.path.exists(f"{run_dir}_{i}"): i += 1` loop of
`make_run_dir`: starting at candidate `i`, return the first suffixed
name not in the filesystem.  The fuel argument only carries termination;
`make_run_dir` passes enough fuel that it is never exhausted
(`exists_free_sfx`). -/
def findFreeSfx (fs : List String) (base : String) : ℕ → ℕ → String
  | i, 0 => sfxName base i
  | i, fuel + 1 =>
      if sfxName base i ∈ fs then findFreeSfx fs base (i + 1) fuel else sfxName base i

/-- `make_run_dir` (report.py lines 128–137): the first candidate is
`f"{date_str}_sf{sf}"`; if that path exists, the loop tries `_2`, `_3`,
… and returns the first free one.  `os.makedirs` then creates the
returned path: the second component is the filesystem after the call. -/
def make_run_dir (fs : List String) (date_str sf : String) : String × List String :=
  let dirname := date_str ++ "_sf" ++ sf
  let run_dir :=
    if dirname ∈ fs then findFreeSfx fs dirname 2 (fs.length + 1)
    else dirname
  (run_dir, run_dir :: fs)

/-! ## Concrete inputs used by the claim-level results -/

/-- A concrete metadata bag (the stats claims do not depend on it). -/
def dbMeta0 : DbMeta :=
  { pg_version := "PostgreSQL 17.0 on x86_64-pc-linux-gnu"
    pg_version_num := 170000
    pg_gucs := [("shared_buffers", "128MB")]
    scale_factor := some 100
    hostname := "bench-host"
    os := "Linux-6.1"
    arch := "x86_64"
    cpu_count := 8 }

/-- A single row whose duration (`10^16` ms) is exactly representable as
a float yet large enough that `str` renders it in exponent form. -/
def rowsSci : List QueryResult :=
  [ { query_id := 1, status := "OK", duration_ms := 10000000000000000
      rows_returned := 0, run_ts := none } ]

/-- Twenty-one rows: twenty at 100 ms and one outlier at 20000 ms, the
smallest shape on which the chart clipping fires (for `n ≤ 20` the
percentile index `⌊0.95 n⌋` is `n - 1`, the maximum itself). -/
def rows21 : List QueryResult :=
  (List.range 20).map
    (fun k => { query_id := k + 1, status := "OK", duration_ms := 100
                rows_returned := 1, run_ts := none })
  ++ [ { query_id := 21, status := "OK", duration_ms := 20000
         rows_returned := 1, run_ts := none } ]

/-- A concrete parsed metadata document. -/
def metaDoc0 : MetaDoc :=
  write_meta_json rowsA dbMeta0 "tpcds" "TPC-DS" "100" "2026-02-28"

/-- Two discovered run directories: the first with an unparseable
`meta.json`, the second fully readable. -/
def dirsCorrupt : List (String × MetaFile) :=
  [("2026-03-01_sf100", MetaFile.corrupt), ("2026-02-28_sf100", MetaFile.readable metaDoc0)]

/-- Two discovered run directories: the first with no `meta.json`, the
second fully readable. -/
def dirsClean : List (String × MetaFile) :=
  [("2026-03-01_sf100", MetaFile.absent), ("2026-02-28_sf100", MetaFile.readable metaDoc0)]

/-! ## Helper lemmas -/

theorem charVal_digitChar {d : ℕ} (h : d < 10) : charVal (Nat.digitChar d) = d := by
  revert h
  revert d
  decide

theorem toDigitsCore_append (fuel : ℕ) : ∀ (n : ℕ) (l : List Char),
    Nat.toDigitsCore 10 fuel n l = Nat.toDigitsCore 10 fuel n [] ++ l := by
  induction fuel with
  | zero => intro n l; simp [Nat.toDigitsCore]
  | succ fuel ih =>
    intro n l
    simp only [Nat.toDigitsCore]
    by_cases h : n / 10 = 0
    · simp [h]
    · simp only [h, if_false]
      rw [ih (n / 10) (Nat.digitChar (n % 10) :: l), ih (n / 10) [Nat.digitChar (n % 10)]]
      simp

theorem val10_toDigitsCore : ∀ (fuel n : ℕ), n ≤ fuel →
    val10 (Nat.toDigitsCore 10 fuel n []) = n := by
  intro fuel
  induction fuel with
  | zero =>
    intro n h
    have hn : n = 0 := Nat.le_zero.mp h
    subst hn
    rfl
  | succ fuel ih =>
    intro n h
    simp only [Nat.toDigitsCore]
    by_cases h10 : n / 10 = 0
    · have hlt : n < 10 := by omega
      simp only [h10, if_true, val10, List.foldl]
      rw [charVal_digitChar (Nat.mod_lt n (by norm_num))]
      omega
    · simp only [h10, if_false]
      rw [toDigitsCore_append]
      have hle : n / 10 ≤ fuel := by
        have hpos : 0 < n := by
          rcases Nat.eq_zero_or_pos n with h0 | h0
          · exact absurd (by simp [h0]) h10
          · exact h0
        have := Nat.div_lt_self hpos (by norm_num : 1 < 10)
        omega
      have hv := ih (n / 10) hle
      unfold val10 at hv ⊢
      rw [List.foldl_append, hv]
      simp only [List.foldl]
      rw [charVal_digitChar (Nat.mod_lt n (by norm_num))]
      omega

theorem val10_repr (n : ℕ) : val10 (Nat.repr n).data = n := by
  have hd : (Nat.repr n).data = Nat.toDigitsCore 10 (n + 1) n [] := rfl
  rw [hd]
  exact val10_toDigitsCore (n + 1) n (Nat.le_succ n)

theorem repr_injective : Function.Injective Nat.repr := by
  intro m n h
  have hv := congrArg (fun s => val10 s.data) h
  simpa [val10_repr] using hv

theorem sfxName_inj (base : String) : Function.Injective (sfxName base) := by
  intro i j h
  unfold sfxName at h
  have hd := congrArg String.data h
  simp only [String.data_append, List.append_assoc] at hd
  have hr : (Nat.repr i).data = (Nat.repr j).data :=
    List.append_cancel_left (List.append_cancel_left hd)
  have hv := congrArg val10 hr
  simpa [val10_repr] using hv

/-- A finite filesystem cannot occupy every numbered candidate: some
suffix `_i` with `2 ≤ i ≤ 2 + |fs|` is always free, so the `while` loop
of `make_run_dir` terminates within `|fs| + 1` probes. -/
theorem exists_free_sfx (fs : List String) (base : String) :
    ∃ k : ℕ, k ≤ fs.length ∧ sfxName base (2 + k) ∉ fs := by
  by_contra hall
  push_neg at hall
  have hinj : Function.Injective (fun k : ℕ => sfxName base (2 + k)) := by
    intro a b hab
    have := sfxName_inj base hab
    omega
  have hnd : ((List.range (fs.length + 1)).map (fun k => sfxName base (2 + k))).Nodup :=
    List.Nodup.map hinj (List.nodup_range _)
  have hsub : ((List.range (fs.length + 1)).map (fun k => sfxName base (2 + k))) ⊆ fs := by
    intro x hx
    simp only [List.mem_map, List.mem_range] at hx
    obtain ⟨k, hk, rfl⟩ := hx
    exact hall k (by omega)
  have hlen := (List.subperm_of_subset hnd hsub).length_le
  simp at hlen

/-- If some candidate within the fuel budget is free, the loop returns a
free name, and that name is the first free candidate at or beyond the
start index. -/
theorem findFreeSfx_spec (fs : List String) (base : String) : ∀ (fuel i : ℕ),
    (∃ k : ℕ, k ≤ fuel ∧ sfxName base (i + k) ∉ fs) →
    findFreeSfx fs base i fuel ∉ fs ∧
      ∃ j : ℕ, i ≤ j ∧ findFreeSfx fs base i fuel = sfxName base j ∧
        ∀ m : ℕ, i ≤ m → m < j → sfxName base m ∈ fs := by
  intro fuel
  induction fuel with
  | zero =>
    intro i hex
    obtain ⟨k, hk, hfree⟩ := hex
    have hk0 : k = 0 := Nat.le_zero.mp hk
    subst hk0
    simp only [Nat.add_zero] at hfree
    exact ⟨hfree, i, le_refl i, rfl, fun m h1 h2 => absurd (lt_of_le_of_lt h1 h2) (lt_irrefl i)⟩
  | succ fuel ih =>
    intro i hex
    simp only [findFreeSfx]
    by_cases hmem : sfxName base i ∈ fs
    · rw [if_pos hmem]
      have hex2 : ∃ k : ℕ, k ≤ fuel ∧ sfxName base (i + 1 + k) ∉ fs := by
        obtain ⟨k, hk, hfree⟩ := hex
        cases k with
        | zero => exact absurd (by simpa using hmem) (by simpa using hfree)
        | succ k2 => exact ⟨k2, by omega, by rw [show i + 1 + k2 = i + (k2 + 1) by omega]; exact hfree⟩
      obtain ⟨hfree2, j, hij, heq, hmin⟩ := ih (i + 1) hex2
      refine ⟨hfree2, j, by omega, heq, ?_⟩
      intro m h1 h2
      rcases Nat.eq_or_lt_of_le h1 with hm | hm
      · rw [← hm]; exact hmem
      · exact hmin m hm h2
    · rw [if_neg hmem]
      exact ⟨hmem, i, le_refl i, rfl, fun m h1 h2 => absurd (lt_of_le_of_lt h1 h2) (lt_irrefl i)⟩

theorem max_swap_right (a b c : ℚ) : max (max a b) c = max (max a c) b := by
  rw [max_assoc, max_comm b c, ← max_assoc]

theorem foldl_max_pull (l : List ℚ) : ∀ a b : ℚ,
    List.foldl max (max a b) l = max b (List.foldl max a l) := by
  induction l with
  | nil => intro a b; simp [max_comm]
  | cons c l ih =>
    intro a b
    simp only [List.foldl]
    rw [max_swap_right, ih]

theorem foldl_max_insertSorted (l : List ℚ) : ∀ a x : ℚ,
    List.foldl max a (insertSorted x l) = max x (List.foldl max a l) := by
  induction l with
  | nil => intro a x; simp [insertSorted, max_comm]
  | cons y ys ih =>
    intro a x
    simp only [insertSorted]
    by_cases h : x ≤ y
    · simp only [h, if_true, List.foldl]
      rw [max_swap_right a x y, foldl_max_pull]
    · simp only [h, if_false, List.foldl]
      rw [ih]

theorem foldl_max_pySorted (l : List ℚ) : ∀ a : ℚ,
    List.foldl max a (pySorted l) = List.foldl max a l := by
  induction l with
  | nil => intro a; rfl
  | cons y ys ih =>
    intro a
    simp only [pySorted, List.foldl]
    rw [foldl_max_insertSorted, ih, foldl_max_pull]

theorem listMax_insertSorted (s : List ℚ) : ∀ x : ℚ,
    listMax (insertSorted x s) = List.foldl max x s := by
  induction s with
  | nil => intro x; rfl
  | cons y ys ih =>
    intro x
    simp only [insertSorted]
    by_cases h : x ≤ y
    · simp [h, listMax]
    · simp only [h, if_false, listMax]
      rw [foldl_max_insertSorted]
      simp only [List.foldl]
      rw [← foldl_max_pull, max_comm y x]

theorem listMax_pySorted (l : List ℚ) : listMax (pySorted l) = listMax l := by
  cases l with
  | nil => rfl
  | cons x xs =>
    show listMax (insertSorted x (pySorted xs)) = listMax (x :: xs)
    rw [listMax_insertSorted, foldl_max_pySorted]
    rfl

theorem insertSorted_length (x : ℚ) (l : List ℚ) :
    (insertSorted x l).length = l.length + 1 := by
  induction l with
  | nil => rfl
  | cons y ys ih =>
    simp only [insertSorted]
    by_cases h : x ≤ y
    · simp [h]
    · simp [h, ih]

theorem pySorted_length (l : List ℚ) : (pySorted l).length = l.length := by
  induction l with
  | nil => rfl
  | cons x xs ih => simp [pySorted, insertSorted_length, ih]

theorem make_run_dir_fresh (fs : List String) (date_str sf : String) :
    (make_run_dir fs date_str sf).1 ∉ fs := by
  unfold make_run_dir
  by_cases h : (date_str ++ "_sf" ++ sf) ∈ fs
  · simp only [h, if_true]
    obtain ⟨k, hk, hfree⟩ := exists_free_sfx fs (date_str ++ "_sf" ++ sf)
    exact (findFreeSfx_spec fs (date_str ++ "_sf" ++ sf) (fs.length + 1) 2
      ⟨k, by omega, hfree⟩).1
  · simp [h]

/-! ## Claim-level results -/

/-- C1 (evidence of the divergence): on scenario A the stats block the
metadata writer actually produces is total=3, ok=2, error=1, but
min_duration = 0.0, median_duration = 95.0 and fastest_query = 3 — the
minimum, median and fastest are taken over all rows including the ERROR
row of duration 0, not over the OK rows as the claim states (which would
give min = 95.0, median = 107.75, fastest = 2). -/
theorem write_meta_json_scenarioA_stats :
    (write_meta_json rowsA dbMeta0 "tpcds" "TPC-DS" "100" "2026-02-28").results =
      { total_queries := 3, ok_count := 2, error_count := 1
        total_duration_ms := 215.5, total_duration_s := 0.2
        min_duration_ms := 0, max_duration_ms := 120.5, median_duration_ms := 95
        fastest_query := some 3, slowest_query := some 1 } := by decide

/-- C2 (evidence of the divergence): on scenario A the record's
`fastest_query` is 3, and the only row with `query_id = 3` has status
ERROR — `min(rows, ...)` scans all rows, so the fastest identifier is
not drawn from the OK rows as the claim states. -/
theorem fastest_query_scenarioA_error_row :
    (metaResults rowsA).fastest_query = some 3 ∧
    ∀ r ∈ rowsA, r.query_id = 3 → r.status = "ERROR" := by decide

/-- C3 (evidence of the divergence): on scenario A the min and median
the writer produces (0.0 and 95.0, over all durations) differ from the
min and median of the OK durations only (95.0 and 107.75) — the stats
are not computed over the OK rows as the claim states. -/
theorem min_median_scenarioA_all_rows :
    (metaResults rowsA).min_duration_ms = 0 ∧
    (metaResults rowsA).median_duration_ms = 95 ∧
    roundTo 2 (listMin (ok_durations rowsA)) = 95 ∧
    roundTo 2 (median (ok_durations rowsA)) = 107.75 ∧
    (metaResults rowsA).min_duration_ms ≠ roundTo 2 (listMin (ok_durations rowsA)) ∧
    (metaResults rowsA).median_duration_ms ≠ roundTo 2 (median (ok_durations rowsA)) := by
  decide

/-- C7: for every non-empty row sequence, `ok_count + error_count =
total_queries` in the built record, and the whole stats block is a pure
function of the rows alone — it does not depend on any other argument of
the metadata writer. -/
theorem counts_add_up (rows : List QueryResult) (_h : rows ≠ []) :
    (metaResults rows).ok_count + (metaResults rows).error_count =
      (metaResults rows).total_queries ∧
    ∀ (md : DbMeta) (schema bench_name sf date_str : String),
      (write_meta_json rows md schema bench_name sf date_str).results = metaResults rows := by
  constructor
  · have hle := List.countP_le_length (p := fun r : QueryResult => r.status == "OK") (l := rows)
    simp only [metaResults]
    omega
  · intro md schema bench_name sf date_str
    rfl

/-- Witness for C7 at scenario A. -/
theorem counts_add_up_w :
    rowsA ≠ [] ∧
    (metaResults rowsA).ok_count + (metaResults rowsA).error_count =
      (metaResults rowsA).total_queries :=
  ⟨by decide, (counts_add_up rowsA (by decide)).1⟩

/-- C10: the `run_ts` field of the metadata document is the first row's
timestamp — it is `none` exactly when the first row carries none,
whatever the later rows carry. -/
theorem run_ts_from_first_row (r : QueryResult) (rest : List QueryResult)
    (md : DbMeta) (schema bench_name sf date_str : String) :
    (write_meta_json (r :: rest) md schema bench_name sf date_str).run_ts = r.run_ts ∧
    ((write_meta_json (r :: rest) md schema bench_name sf date_str).run_ts = none ↔
      r.run_ts = none) :=
  ⟨rfl, Iff.rfl⟩

/-- C8 (counterexample): a duration of `10^16` ms is written by the
tabular exporter in scientific notation, so "never in scientific
notation" fails as stated. -/
theorem write_summary_csv_scientific_cex :
    ¬ ∀ rec ∈ (write_summary_csv rowsSci).records,
        rec.duration_style = PyFloatStyle.positional := by decide

/-- C8 (amended): the tabular exporter writes the fixed header and then
exactly one record per row, in order, with the four cells in the fixed
field order (`csvRecordOf`); on an empty sequence it writes the header
only; and a duration is rendered in plain decimal notation whenever it
is zero or its magnitude lies in `[10^-4, 10^16)` — outside that range
Python's float `str` uses scientific notation. -/
theorem write_summary_csv_spec (rows : List QueryResult) :
    (write_summary_csv rows).header = ["query_id", "status", "duration_ms", "rows_returned"] ∧
    (write_summary_csv rows).records.length = rows.length ∧
    (∀ (i : ℕ) (r : QueryResult), rows[i]? = some r →
      (write_summary_csv rows).records[i]? = some (csvRecordOf r)) ∧
    (∀ r ∈ rows,
      (r.duration_ms = 0 ∨ (1 / 10 ^ 4 ≤ |r.duration_ms| ∧ |r.duration_ms| < 10 ^ 16)) →
      (csvRecordOf r).duration_style = PyFloatStyle.positional) ∧
    (rows = [] → (write_summary_csv rows).records = []) := by
  refine ⟨rfl, by simp [write_summary_csv], ?_, ?_, ?_⟩
  · intro i r hir
    simp [write_summary_csv, List.getElem?_map, hir]
  · intro r _ hd
    have hcond : ¬ (r.duration_ms ≠ 0 ∧
        (|r.duration_ms| < 1 / 10 ^ 4 ∨ 10 ^ 16 ≤ |r.duration_ms|)) := by
      rcases hd with h0 | ⟨h1, h2⟩
      · exact fun hc => hc.1 h0
      · rintro ⟨-, hlo | hhi⟩
        · exact absurd hlo (not_lt.mpr h1)
        · exact absurd hhi (not_le.mpr h2)
    simp only [csvRecordOf, floatStrStyle, if_neg hcond]
  · intro h
    simp [h, write_summary_csv]

/-- Witness for C8 (amended) at scenario A and on the empty input. -/
theorem write_summary_csv_spec_w :
    (write_summary_csv rowsA).header = ["query_id", "status", "duration_ms", "rows_returned"] ∧
    (write_summary_csv rowsA).records.length = rowsA.length ∧
    (write_summary_csv rowsA).records[0]? =
      some (csvRecordOf { query_id := 1, status := "OK", duration_ms := 120.5
                          rows_returned := 100, run_ts := none }) ∧
    (csvRecordOf { query_id := 1, status := "OK", duration_ms := 120.5
                   rows_returned := 100, run_ts := none }).duration_style =
      PyFloatStyle.positional ∧
    (write_summary_csv []).records = [] := by
  have t := write_summary_csv_spec rowsA
  refine ⟨t.1, t.2.1, t.2.2.1 0 _ (by decide), t.2.2.2.1 _ (by decide) ?_, 
    (write_summary_csv_spec []).2.2.2.2 rfl⟩
  right
  constructor
  · decide
  · decide

/-- C5 (counterexample): a run directory whose metadata document is
present but unreadable is not skipped — `json.load` raises and the whole
scan aborts instead of completing with the remaining valid run. -/
theorem update_readme_scan_corrupt_aborts :
    update_readme_scan dirsCorrupt = Except.error () ∧
    update_readme_scan dirsCorrupt ≠
      Except.ok [("2026-02-28_sf100", metaDoc0)] := by
  exact ⟨rfl, fun h => by cases h⟩

/-- C5 (amended): a run directory whose metadata document is missing is
skipped and excluded, and the scan completes over the remaining
directories; but a metadata document that is present and unparseable
aborts the entire index rebuild. -/
theorem update_readme_scan_spec (dirs : List (String × MetaFile)) :
    ((∀ p ∈ dirs, p.2 ≠ MetaFile.corrupt) →
      update_readme_scan dirs = Except.ok (readableRuns dirs)) ∧
    ((∃ p ∈ dirs, p.2 = MetaFile.corrupt) →
      update_readme_scan dirs = Except.error ()) := by
  induction dirs with
  | nil => exact ⟨fun _ => rfl, by simp⟩
  | cons d rest ih =>
    obtain ⟨name, mf⟩ := d
    constructor
    · intro hall
      cases mf with
      | absent =>
        show update_readme_scan rest = Except.ok (readableRuns ((name, MetaFile.absent) :: rest))
        rw [ih.1 (fun p hp => hall p (List.mem_cons_of_mem _ hp))]
        rfl
      | corrupt =>
        exact absurd rfl (hall (name, MetaFile.corrupt) (List.mem_cons_self _ _))
      | readable doc =>
        have hr := ih.1 (fun p hp => hall p (List.mem_cons_of_mem _ hp))
        show (match update_readme_scan rest with
          | Except.ok runs => Except.ok ((name, doc) :: runs)
          | Except.error e => Except.error e) =
          Except.ok (readableRuns ((name, MetaFile.readable doc) :: rest))
        rw [hr]
        rfl
    · intro hex
      obtain ⟨p, hp, hcor⟩ := hex
      rcases List.mem_cons.mp hp with heq | hmem
      · subst heq
        cases mf with
        | absent => exact absurd hcor (by simp)
        | corrupt => rfl
        | readable doc => exact absurd hcor (by simp)
      · cases mf with
        | absent =>
          show update_readme_scan rest = Except.error ()
          exact ih.2 ⟨p, hmem, hcor⟩
        | corrupt => rfl
        | readable doc =>
          have he := ih.2 ⟨p, hmem, hcor⟩
          show (match update_readme_scan rest with
            | Except.ok runs => Except.ok ((name, doc) :: runs)
            | Except.error e => Except.error e) = Except.error ()
          rw [he]

/-- Witness for C5 (amended): with one missing and one readable
directory, the scan skips the missing one and indexes the readable
run. -/
theorem update_readme_scan_spec_w :
    update_readme_scan dirsClean = Except.ok [("2026-02-28_sf100", metaDoc0)] := by
  have t := (update_readme_scan_spec dirsClean).1 (by decide)
  exact t

/-- C9: the percentile step of the chart renderer is total on non-empty
inputs — for `n ≥ 5` the index `⌊0.95 n⌋ = ⌊19n/20⌋` is strictly below
`n`, and otherwise the maximum of a non-empty list is taken, so no
lookup can fail. -/
theorem p95_total (durations : List ℚ) (h : durations ≠ []) :
    (5 ≤ durations.length → 19 * durations.length / 20 < durations.length) ∧
    (p95opt durations).isSome = true := by
  constructor
  · intro h5; omega
  · have hlen : (pySorted durations).length = durations.length := pySorted_length durations
    have hpos : 0 < durations.length := List.length_pos.mpr h
    unfold p95opt
    by_cases h5 : 5 ≤ (pySorted durations).length
    · rw [if_pos h5]
      have hidx : 19 * (pySorted durations).length / 20 < (pySorted durations).length := by
        omega
      simp [List.getElem?_eq_getElem hidx]
    · rw [if_neg h5]
      cases hs : pySorted durations with
      | nil => rw [hs, List.length_nil] at hlen; omega
      | cons a t => rfl

/-- Witness for C9 on a concrete six-element list. -/
theorem p95_total_w :
    ([100, 200, 300, 400, 500, 600] : List ℚ) ≠ [] ∧
    (19 * ([100, 200, 300, 400, 500, 600] : List ℚ).length / 20 <
      ([100, 200, 300, 400, 500, 600] : List ℚ).length) ∧
    (p95opt [100, 200, 300, 400, 500, 600]).isSome = true := by
  have t := p95_total [100, 200, 300, 400, 500, 600] (by decide)
  exact ⟨by decide, t.1 (by decide), t.2⟩

/-- C4: the outlier policy of the chart renderer.  If the duration list
has fewer than five elements, or its maximum does not exceed three times
the percentile value, or the percentile is not positive, no clipping cap
is set.  Otherwise the cap is exactly twice the percentile, the y-axis
maximum is the cap times 1.12, and a bar is drawn at 1.05 times the cap
with its true value as annotation exactly when its true duration exceeds
the cap. -/
theorem create_chart_clip_policy (rows : List QueryResult) (_h : rows ≠ []) :
    ((durationsOf rows).length < 5 ∨
        listMax (durationsOf rows) ≤ 3 * p95of (durationsOf rows) ∨
        p95of (durationsOf rows) ≤ 0 →
      (create_chart rows).y_cap = none ∧ (create_chart rows).y_max = none) ∧
    (3 * p95of (durationsOf rows) < listMax (durationsOf rows) →
      0 < p95of (durationsOf rows) →
      (create_chart rows).y_cap = some (p95of (durationsOf rows) * 2) ∧
      (create_chart rows).y_max = some (p95of (durationsOf rows) * 2 * (112 / 100)) ∧
      ∀ (i : ℕ) (d : ℚ), (durationsOf rows)[i]? = some d →
        (p95of (durationsOf rows) * 2 < d →
          (create_chart rows).bars[i]? =
            some { height := p95of (durationsOf rows) * 2 * (105 / 100), clipLabel := some d }) ∧
        (d ≤ p95of (durationsOf rows) * 2 →
          (create_chart rows).bars[i]? = some { height := d, clipLabel := none })) := by
  constructor
  · intro hdisj
    have hcond : ¬ (3 * p95of (durationsOf rows) < listMax (durationsOf rows) ∧
        0 < p95of (durationsOf rows)) := by
      rcases hdisj with h5 | hle | hp
      · rintro ⟨hlt, hpos⟩
        have hp95 : p95of (durationsOf rows) = listMax (durationsOf rows) := by
          unfold p95of p95opt
          have h5s : ¬ 5 ≤ (pySorted (durationsOf rows)).length := by
            rw [pySorted_length]; omega
          rw [if_neg h5s]
          have hmax := listMax_pySorted (durationsOf rows)
          cases hs : pySorted (durationsOf rows) with
          | nil =>
            rw [hs] at hmax
            exact hmax
          | cons a t =>
            rw [hs] at hmax
            simpa [listMax] using hmax
        rw [hp95] at hlt hpos
        linarith
      · exact fun hc => absurd hc.1 (not_lt.mpr hle)
      · exact fun hc => absurd hc.2 (not_lt.mpr hp)
    have hcap : chartYCap (durationsOf rows) = none := by
      unfold chartYCap; rw [if_neg hcond]
    constructor
    · show (create_chart rows).y_cap = none
      simp only [create_chart]
      rw [hcap]
    · show (create_chart rows).y_max = none
      simp only [create_chart]
      rw [hcap]
  · intro hlt hpos
    have hcap : chartYCap (durationsOf rows) = some (p95of (durationsOf rows) * 2) := by
      unfold chartYCap; rw [if_pos ⟨hlt, hpos⟩]
    have hne : ¬ (p95of (durationsOf rows) * 2 = 0) := by
      have h2 : 0 < p95of (durationsOf rows) * 2 := by linarith
      exact ne_of_gt h2
    have hcc : create_chart rows =
        { y_cap := some (p95of (durationsOf rows) * 2)
          y_max := some (p95of (durationsOf rows) * 2 * (112 / 100))
          bars := (durationsOf rows).map (applyClip (p95of (durationsOf rows) * 2)) } := by
      simp only [create_chart]
      rw [hcap]
      simp only [if_neg hne]
    refine ⟨by rw [hcc], by rw [hcc], ?_⟩
    intro i d hid
    have hbar : (create_chart rows).bars[i]? =
        some (applyClip (p95of (durationsOf rows) * 2) d) := by
      rw [hcc]
      simp [List.getElem?_map, hid]
    constructor
    · intro hgt
      rw [hbar]
      unfold applyClip
      rw [if_pos hgt]
    · intro hle
      rw [hbar]
      unfold applyClip
      rw [if_neg (not_lt.mpr hle)]

set_option maxRecDepth 16000 in
/-- Witness for C4 on 21 rows (twenty at 100 ms, one at 20000 ms): the
percentile is 100, clipping fires, the cap is 200, the axis tops out at
224, the outlier bar is drawn at 210 and annotated with 20000, and an
unclipped bar keeps its height. -/
theorem create_chart_clip_policy_w :
    rows21 ≠ [] ∧
    p95of (durationsOf rows21) = 100 ∧
    (create_chart rows21).y_cap = some 200 ∧
    (create_chart rows21).y_max = some 224 ∧
    (create_chart rows21).bars[20]? = some { height := 210, clipLabel := some 20000 } ∧
    (create_chart rows21).bars[0]? = some { height := 100, clipLabel := none } := by
  have hp : p95of (durationsOf rows21) = 100 := by decide
  have h3 : 3 * p95of (durationsOf rows21) < listMax (durationsOf rows21) := by decide
  have h0 : (0 : ℚ) < p95of (durationsOf rows21) := by decide
  obtain ⟨hcap, hymax, hbars⟩ := (create_chart_clip_policy rows21 (by decide)).2 h3 h0
  refine ⟨by decide, hp, ?_, ?_, ?_, ?_⟩
  · rw [hcap, hp]; decide
  · rw [hymax, hp]; decide
  · have hd : (durationsOf rows21)[20]? = some 20000 := by decide
    have hb := (hbars 20 20000 hd).1 (by rw [hp]; decide)
    rw [hb, hp]; decide
  · have hd : (durationsOf rows21)[0]? = some 100 := by decide
    have hb := (hbars 0 100 hd).2 (by rw [hp]; decide)
    rw [hb]

/-- C6: the directory allocator never returns a path that existed at
call time; the first candidate is `<date>_sf<scale>`; when that is
occupied the result is the suffixed candidate with the first unused
suffix (every smaller suffix from `_2` on is occupied); and two
successive calls with the same date and scale factor return distinct
paths. -/
theorem make_run_dir_spec (fs : List String) (date_str sf : String) :
    (make_run_dir fs date_str sf).1 ∉ fs ∧
    (date_str ++ "_sf" ++ sf ∉ fs →
      (make_run_dir fs date_str sf).1 = date_str ++ "_sf" ++ sf) ∧
    (date_str ++ "_sf" ++ sf ∈ fs →
      ∃ i : ℕ, 2 ≤ i ∧
        (make_run_dir fs date_str sf).1 = sfxName (date_str ++ "_sf" ++ sf) i ∧
        ∀ j : ℕ, 2 ≤ j → j < i → sfxName (date_str ++ "_sf" ++ sf) j ∈ fs) ∧
    (make_run_dir (make_run_dir fs date_str sf).2 date_str sf).1 ≠
      (make_run_dir fs date_str sf).1 := by
  refine ⟨make_run_dir_fresh fs date_str sf, ?_, ?_, ?_⟩
  · intro hnot
    show (make_run_dir fs date_str sf).1 = _
    simp only [make_run_dir]
    rw [if_neg hnot]
  · intro hmem
    obtain ⟨k, hk, hfree⟩ := exists_free_sfx fs (date_str ++ "_sf" ++ sf)
    obtain ⟨hfree2, j, hij, heq, hmin⟩ :=
      findFreeSfx_spec fs (date_str ++ "_sf" ++ sf) (fs.length + 1) 2 ⟨k, by omega, hfree⟩
    refine ⟨j, hij, ?_, fun m h2 hm => hmin m h2 hm⟩
    show (make_run_dir fs date_str sf).1 = _
    simp only [make_run_dir]
    rw [if_pos hmem]
    exact heq
  · intro heq
    have hfresh := make_run_dir_fresh (make_run_dir fs date_str sf).2 date_str sf
    apply hfresh
    rw [heq]
    show (make_run_dir fs date_str sf).1 ∈ (make_run_dir fs date_str sf).2
    simp only [make_run_dir]
    exact List.mem_cons_self _ _

/-- Witness for C6: on an empty base directory the first candidate is
returned; when `2026-02-28_sf100` already exists the call returns the
fresh suffixed path `2026-02-28_sf100_2`. -/
theorem make_run_dir_spec_w :
    (make_run_dir ["2026-02-28_sf100"] "2026-02-28" "100").1 ∉ ["2026-02-28_sf100"] ∧
    (make_run_dir [] "2026-02-28" "100").1 = "2026-02-28" ++ "_sf" ++ "100" ∧
    (make_run_dir ["2026-02-28_sf100"] "2026-02-28" "100").1 = "2026-02-28_sf100_2" := by
  refine ⟨(make_run_dir_spec ["2026-02-28_sf100"] "2026-02-28" "100").1,
    (make_run_dir_spec [] "2026-02-28" "100").2.1 (by decide), ?_⟩
  decide
